import Mathlib

/-!
# Verification of the ModuleConfig kernel-module metadata extractor

A shallow embedding of `src/main.rs` (repository Xinkai/ModuleConfig).
The program inventories Linux kernel modules: it lists loaded modules from
`/proc/modules` (`get_loaded_modules`) and, for each installed `.ko.gz`
file, decompresses it, looks up the `.modinfo` ELF section and parses that
section's NUL-separated `key=value` records into a `ModInfo` value
(`get_modinfo_from_file`).

Rust strings are UTF-8 byte sequences, and every string operation the
program performs (prefix tests, byte slicing at ASCII boundaries, `find`,
`split`, equality) acts on those bytes, so a string is embedded as its
byte list `Str := List Nat` and `String::from_utf8` as a validity check
(`validUtf8`) on the bytes.  A Rust panic (any `unwrap` failure) is
embedded as `Option.none`; a returned `Result` is `Except String`.
The third-party crates (`flate2` gzip decompression and the `elf` section
lookup) are not repository code: they are abstracted as their result —
the per-file pipeline takes the outcome of those stages as input.
-/

namespace ModuleConfig

/-- A Rust string or byte slice, embedded as its sequence of bytes. -/
abbrev Str := List Nat

/-- Bytes of an ASCII string literal (for ASCII, codepoint = UTF-8 byte). -/
def strB (s : String) : Str := s.data.map Char.toNat

/-- Rust `str::starts_with` / `slice::starts_with`: byte-level prefix test
(first argument the string, second the prefix, as in `entry.starts_with(p)`). -/
def startsWith (s p : Str) : Bool :=
  match p, s with
  | [], _ => true
  | _ :: _, [] => false
  | pb :: ps, b :: bs => b == pb && startsWith bs ps
termination_by structural p

/-- Rust `split` on a one-byte separator, for `slice::split(|chr| *chr == 0)`,
`str::split(":")` and `str::split(",")`: keeps empty pieces, yields one empty
piece on empty input. -/
def splitSep (sep : Nat) : List Nat → List (List Nat)
  | [] => [[]]
  | b :: rest =>
    let r := splitSep sep rest
    if b = sep then [] :: r
    else
      match r with
      | [] => [[b]]
      | h :: t => (b :: h) :: t

/-- A UTF-8 continuation byte (`0x80–0xBF`). -/
def utf8Cont (b : Nat) : Bool := 128 ≤ b && b ≤ 191

/-- Validity of a byte sequence as UTF-8, as checked by Rust's
`String::from_utf8`: rejects overlong encodings, surrogates and
codepoints above `0x10FFFF`. -/
def validUtf8 : List Nat → Bool
  | [] => true
  | b :: rest =>
    if b ≤ 127 then validUtf8 rest
    else if b ≤ 193 then false
    else if b ≤ 223 then
      match rest with
      | b1 :: r => utf8Cont b1 && validUtf8 r
      | [] => false
    else if b ≤ 239 then
      match rest with
      | b1 :: b2 :: r =>
        (if b = 224 then 160 ≤ b1 && b1 ≤ 191
         else if b = 237 then 128 ≤ b1 && b1 ≤ 159
         else utf8Cont b1) && utf8Cont b2 && validUtf8 r
      | _ => false
    else if b ≤ 244 then
      match rest with
      | b1 :: b2 :: b3 :: r =>
        (if b = 240 then 144 ≤ b1 && b1 ≤ 191
         else if b = 244 then 128 ≤ b1 && b1 ≤ 143
         else utf8Cont b1) && utf8Cont b2 && utf8Cont b3 && validUtf8 r
      | _ => false
    else false

/-- `struct ModuleParameter` of `src/main.rs`. -/
structure ModuleParameter where
  name : Str
  description : Str
  kind : Str
deriving DecidableEq, Repr

/-- `struct ModInfo` of `src/main.rs`.  The Rust
`HashMap<String, ModuleParameter>` is embedded as an association list with
unique keys (insertion replaces an existing binding in place); `firewares`
keeps the source's field name. -/
structure ModInfo where
  license : Str
  parameters : List (Str × ModuleParameter)
  «alias» : List Str
  dependencies : List Str
  description : Str
  authors : List Str
  vermagic : Str
  intree : Bool
  firewares : List Str
deriving DecidableEq, Repr

/-- `ModInfo::default()`: empty strings and collections, `intree = false`. -/
def ModInfo.default : ModInfo := ⟨[], [], [], [], [], [], [], false, []⟩

/-- `HashMap::insert`: replace the binding of an existing key, else append. -/
def insertParam : List (Str × ModuleParameter) → Str → ModuleParameter →
    List (Str × ModuleParameter)
  | [], k, v => [(k, v)]
  | (k0, v0) :: rest, k, v =>
    if k0 = k then (k, v) :: rest else (k0, v0) :: insertParam rest k v

/-- `HashMap::get_mut` as a lookup: the binding of `k`, if any. -/
def getParam? : List (Str × ModuleParameter) → Str → Option ModuleParameter
  | [], _ => none
  | (k0, v0) :: rest, k => if k0 = k then some v0 else getParam? rest k

/-- The in-place mutation `(*x).kind = …` performed through
`HashMap::get_mut`: update the kind of the binding of `k`, if any. -/
def setKind : List (Str × ModuleParameter) → Str → Str →
    List (Str × ModuleParameter)
  | [], _, _ => []
  | (k0, v0) :: rest, k, kd =>
    if k0 = k then (k0, { v0 with kind := kd }) :: rest
    else (k0, v0) :: setKind rest k kd

/-- The body of the record loop of `get_modinfo_from_file`
(`src/main.rs` lines 91–139) on one NUL-separated record `one`:
UTF-8-decode it (`String::from_utf8(..).unwrap()`, panic = `none` on
invalid bytes), then dispatch on the recognized prefixes in source order.
`parm=` panics (`find(":").unwrap()`) when the remainder has no colon;
`parmtype=` takes the first two `:`-separated pieces and panics
(`split.next().unwrap()`) when a second piece is missing while the first
names a registered parameter; `firmware=` drops `"fireware=".len()` (= 9)
bytes, as in the source.  The final `else` prints a diagnostic and leaves
the state unchanged. -/
def processEntry (m : ModInfo) (one : Str) : Option ModInfo :=
  if validUtf8 one = false then none
  else if startsWith one (strB "parm=") then
    let tmp := one.drop 5
    match tmp.findIdx? (· == 58) with
    | none => none
    | some i =>
      let name := tmp.take i
      let description := tmp.drop i
      let ps := insertParam m.parameters name ⟨name, description.drop 1, []⟩
      some { m with parameters := ps }
  else if startsWith one (strB "parmtype=") then
    let tmp := one.drop 9
    let pieces := splitSep 58 tmp
    let name := pieces.headD []
    match getParam? m.parameters name with
    | some _ =>
      match pieces.get? 1 with
      | some kd => some { m with parameters := setKind m.parameters name kd }
      | none => none
    | none => some m
  else if startsWith one (strB "license=") then
    some { m with license := one.drop 8 }
  else if startsWith one (strB "alias=") then
    some { m with «alias» := m.«alias» ++ [one.drop 6] }
  else if startsWith one (strB "depends=") then
    some { m with dependencies := m.dependencies ++ splitSep 44 (one.drop 8) }
  else if startsWith one (strB "description=") then
    some { m with description := one.drop 12 }
  else if startsWith one (strB "author=") then
    some { m with authors := m.authors ++ [one.drop 7] }
  else if startsWith one (strB "vermagic=") then
    some { m with vermagic := one.drop 9 }
  else if startsWith one (strB "intree=") then
    some { m with intree := one.drop 7 == strB "Y" }
  else if startsWith one (strB "firmware=") then
    some { m with firewares := m.firewares ++ [one.drop 9] }
  else if startsWith one (strB "version=") then some m
  else if startsWith one (strB "srcversion=") then some m
  else if startsWith one (strB "staging=") then some m
  else if startsWith one (strB "release_date=") then some m
  else if startsWith one (strB "softdep=") then some m
  else if one == [] then some m
  else some m

/-- The record loop folded over a list of records; a panic in any record
aborts the whole parse. -/
def processEntries (m : ModInfo) : List Str → Option ModInfo
  | [] => some m
  | e :: rest =>
    match processEntry m e with
    | none => none
    | some m2 => processEntries m2 rest

/-- The `.modinfo`-section parse of `get_modinfo_from_file`: split the
section bytes on NUL and fold the record loop from `ModInfo::default()`. -/
def parseModinfo (data : Str) : Option ModInfo :=
  processEntries ModInfo.default (splitSep 0 data)

/-- The `match file.get_section(".modinfo")` of `get_modinfo_from_file`
(`src/main.rs` lines 88–143), taking the ELF lookup's result as input
(the `elf` crate is external): `None` yields
`Err("Cannot find .modinfo section")`, `Some s` runs the parse (whose
panics surface as the outer `none`). -/
def get_modinfo_from_section : Option Str → Option (Except String ModInfo)
  | some s => (parseModinfo s).map Except.ok
  | none => some (Except.error "Cannot find .modinfo section")

/-- Per-file outcome of the stages before the section match: the gzip
decompression and ELF header parse (external crates) either panic
(`unwrap()` / `panic!` in `src/main.rs` lines 74–86) or produce an image
whose `.modinfo` lookup result is `sec`. -/
inductive FileOutcome where
  | badStream : FileOutcome
  | image : Option Str → FileOutcome
deriving DecidableEq, Repr

/-- One file through `get_modinfo_from_file`: a pre-section panic is
`none`; otherwise the section match runs. -/
def get_modinfo_outcome : FileOutcome → Option (Except String ModInfo)
  | .badStream => none
  | .image sec => get_modinfo_from_section sec

/-- The driving loop of `main` (`src/main.rs` lines 181–183):
`get_modinfo_from_file(path).unwrap()` for each file in order.  A panic
inside the extraction, or `unwrap` of an `Err`, kills the process and
with it the rest of the batch (`none`). -/
def run_batch : List FileOutcome → Option (List ModInfo)
  | [] => some []
  | f :: rest =>
    match get_modinfo_outcome f with
    | none => none
    | some (Except.error _) => none
    | some (Except.ok m) => (run_batch rest).map (m :: ·)

/-- `struct Module` of `src/main.rs` (a loaded-module table entry). -/
structure Module where
  name : Str
  size : Nat
  ref_count : Nat
  dependencies : List Str
deriving DecidableEq, Repr

/-- A decimal digit byte. -/
def isDigitByte (b : Nat) : Bool := 48 ≤ b && b ≤ 57

/-- Digit-list value accumulator for `parseUsize`. -/
def digitsVal : List Nat → Nat → Option Nat
  | [], acc => some acc
  | b :: rest, acc =>
    if isDigitByte b then digitsVal rest (acc * 10 + (b - 48)) else none

/-- Rust `str::parse::<usize>()`: an optional `+` sign followed by at
least one decimal digit, value below `2^64` (64-bit `usize`). -/
def parseUsize (s : Str) : Option Nat :=
  let digits := match s with
    | 43 :: rest => rest
    | _ => s
  match digits with
  | [] => none
  | _ =>
    match digitsVal digits 0 with
    | some n => if n < 2 ^ 64 then some n else none
    | none => none

/-- One line of `/proc/modules` through the loop body of
`get_loaded_modules` (`src/main.rs` lines 150–167): split on `' '`,
take fields 0–3 (`unwrap`/index panics are `none`); the dependencies
field `"-"` means no dependencies, otherwise it is split on `','` and
the empty pieces are filtered out. -/
def parse_proc_line (text : Str) : Option Module :=
  match (splitSep 32 text).get? 0, (splitSep 32 text).get? 1,
      (splitSep 32 text).get? 2, (splitSep 32 text).get? 3 with
  | some nm, some sz, some uc, some dep =>
    match parseUsize sz, parseUsize uc with
    | some s, some r =>
      some ⟨nm, s, r,
        if dep = strB "-" then []
        else (splitSep 44 dep).filter (fun one => !(one == []))⟩
    | _, _ => none
  | _, _, _, _ => none

end ModuleConfig

/-! ## Helper lemmas -/

namespace ModuleConfig

/-- Peeling one recognized-prefix branch off the dispatch chain: a branch
that returns `some` contributes no abort. -/
theorem ite_some_eq_none_iff {c : Prop} [Decidable c] {a : ModInfo}
    {x : Option ModInfo} :
    (if c then some a else x) = none ↔ ¬c ∧ x = none := by
  split_ifs with hc <;> simp [hc]

/-- Peeling one recognized-prefix branch off the dispatch chain, success
case: either this branch produced the result or a later one did. -/
theorem ite_some_eq_some_iff {c : Prop} [Decidable c] {a : ModInfo}
    {x : Option ModInfo} {m2 : ModInfo} :
    (if c then some a else x) = some m2 ↔
      (c ∧ a = m2) ∨ (¬c ∧ x = some m2) := by
  split_ifs with hc <;> simp [hc]

/-- Membership after a `HashMap::insert`: the new binding or an old one. -/
theorem insertParam_mem {ps : List (Str × ModuleParameter)} {k : Str}
    {v : ModuleParameter} {k' : Str} {p' : ModuleParameter}
    (h : (k', p') ∈ insertParam ps k v) :
    (k' = k ∧ p' = v) ∨ (k', p') ∈ ps := by
  induction ps with
  | nil =>
    simp only [insertParam, List.mem_singleton, Prod.mk.injEq] at h
    exact Or.inl h
  | cons hd tl ih =>
    obtain ⟨k0, v0⟩ := hd
    simp only [insertParam] at h
    split_ifs at h with he
    · rcases List.mem_cons.mp h with h | h
      · exact Or.inl (by simpa [Prod.ext_iff] using h)
      · exact Or.inr (List.mem_cons.mpr (Or.inr h))
    · rcases List.mem_cons.mp h with h | h
      · exact Or.inr (List.mem_cons.mpr (Or.inl h))
      · rcases ih h with h' | h'
        · exact Or.inl h'
        · exact Or.inr (List.mem_cons.mpr (Or.inr h'))

/-- Membership after the `get_mut`-based kind update: every binding keeps
its key and its stored name. -/
theorem setKind_mem {ps : List (Str × ModuleParameter)} {k kd : Str}
    {k' : Str} {p' : ModuleParameter}
    (h : (k', p') ∈ setKind ps k kd) :
    ∃ p0, (k', p0) ∈ ps ∧ p'.name = p0.name := by
  induction ps with
  | nil => simp [setKind] at h
  | cons hd tl ih =>
    obtain ⟨k0, v0⟩ := hd
    simp only [setKind] at h
    split_ifs at h with he
    · rcases List.mem_cons.mp h with h | h
      · simp only [Prod.mk.injEq] at h
        obtain ⟨hk, hp⟩ := h
        exact ⟨v0, List.mem_cons.mpr (Or.inl (by simp [hk])), by simp [hp]⟩
      · exact ⟨p', List.mem_cons.mpr (Or.inr h), rfl⟩
    · rcases List.mem_cons.mp h with h | h
      · simp only [Prod.mk.injEq] at h
        obtain ⟨hk, hp⟩ := h
        exact ⟨v0, List.mem_cons.mpr (Or.inl (by simp [hk])), by simp [hp]⟩
      · obtain ⟨p0, hm, hn⟩ := ih h
        exact ⟨p0, List.mem_cons.mpr (Or.inr hm), hn⟩

/-- Lookup after a `HashMap::insert`: the inserted value under its key,
the old mapping elsewhere. -/
theorem getParam?_insertParam (ps : List (Str × ModuleParameter)) (kn : Str)
    (v : ModuleParameter) (k : Str) :
    getParam? (insertParam ps kn v) k =
      if kn = k then some v else getParam? ps k := by
  induction ps with
  | nil => simp [insertParam, getParam?]
  | cons hd tl ih =>
    obtain ⟨k0, v0⟩ := hd
    simp only [insertParam]
    split_ifs <;> simp_all [getParam?]

/-- Lookup after the `get_mut`-based kind update: a key absent before the
update is still absent after it (`setKind` never adds a binding). -/
theorem getParam?_setKind_none {ps : List (Str × ModuleParameter)}
    {k kd k' : Str} (h : getParam? ps k' = none) :
    getParam? (setKind ps k kd) k' = none := by
  induction ps with
  | nil => simp [setKind, getParam?]
  | cons hd tl ih =>
    obtain ⟨k0, v0⟩ := hd
    simp only [getParam?] at h
    split_ifs at h with h2
    simp only [setKind]
    split_ifs with he
    · simp only [getParam?]
      rw [if_neg h2]
      exact h
    · simp only [getParam?]
      rw [if_neg h2]
      exact ih h

/-- Equation for the `parm=` branch of the record loop: once that prefix
matches (and text decoding succeeded), the step is the `find(":")` match. -/
theorem processEntry_parm_eq (m : ModInfo) (one : Str)
    (hv : ¬validUtf8 one = false)
    (h1 : startsWith one (strB "parm=") = true) :
    processEntry m one =
      (match (one.drop 5).findIdx? (fun x => x == 58) with
        | none => none
        | some i => some { m with parameters := insertParam m.parameters ((one.drop 5).take i) ⟨(one.drop 5).take i, ((one.drop 5).drop i).drop 1, []⟩ }) := by
  unfold processEntry
  rw [if_neg hv, if_pos h1]

/-- Equation for the `parmtype=` branch of the record loop: once that
prefix matches, the step is the nested lookup/second-piece match. -/
theorem processEntry_parmtype_eq (m : ModInfo) (one : Str)
    (hv : ¬validUtf8 one = false)
    (h1 : ¬startsWith one (strB "parm=") = true)
    (h2 : startsWith one (strB "parmtype=") = true) :
    processEntry m one =
      (match getParam? m.parameters ((splitSep 58 (one.drop 9)).headD []) with
        | some _ =>
          match (splitSep 58 (one.drop 9)).get? 1 with
          | some kd => some { m with parameters := setKind m.parameters ((splitSep 58 (one.drop 9)).headD []) kd }
          | none => none
        | none => some m) := by
  unfold processEntry
  rw [if_neg hv, if_neg h1, if_pos h2]

/-- One step of the record loop preserves the key-equals-stored-name
invariant of the parameters mapping. -/
theorem processEntry_preserves_inv {m m2 : ModInfo} {one : Str}
    (h : processEntry m one = some m2)
    (hinv : ∀ k p, (k, p) ∈ m.parameters → p.name = k) :
    ∀ k p, (k, p) ∈ m2.parameters → p.name = k := by
  by_cases hv : validUtf8 one = false
  · unfold processEntry at h
    rw [if_pos hv] at h
    exact absurd h (by simp)
  · by_cases h1 : startsWith one (strB "parm=") = true
    · rw [processEntry_parm_eq m one hv h1] at h
      cases hf : (one.drop 5).findIdx? (fun x => x == 58) with
      | none => rw [hf] at h; exact absurd h (by simp)
      | some i =>
        rw [hf] at h
        simp only [Option.some.injEq] at h
        subst h
        intro k p hmem
        rcases insertParam_mem hmem with ⟨hk, hp⟩ | hmem'
        · subst hk; subst hp; rfl
        · exact hinv k p hmem'
    · by_cases h2 : startsWith one (strB "parmtype=") = true
      · rw [processEntry_parmtype_eq m one hv h1 h2] at h
        cases hg : getParam? m.parameters ((splitSep 58 (one.drop 9)).headD []) with
        | none =>
          rw [hg] at h
          simp only [Option.some.injEq] at h
          subst h
          exact hinv
        | some x =>
          rw [hg] at h
          cases hk : (splitSep 58 (one.drop 9)).get? 1 with
          | none => rw [hk] at h; exact absurd h (by simp)
          | some kd =>
            rw [hk] at h
            simp only [Option.some.injEq] at h
            subst h
            intro k p hmem
            rcases setKind_mem hmem with ⟨p0, hm, hn⟩
            exact hn.trans (hinv k p0 hm)
      · unfold processEntry at h
        rw [if_neg hv, if_neg h1, if_neg h2] at h
        simp only [ite_some_eq_some_iff, Option.some.injEq] at h
        rcases h with ⟨-, rfl⟩ | ⟨-, ⟨-, rfl⟩ | ⟨-, ⟨-, rfl⟩ | ⟨-, ⟨-, rfl⟩ | ⟨-, ⟨-, rfl⟩ | ⟨-, ⟨-, rfl⟩ | ⟨-, ⟨-, rfl⟩ | ⟨-, ⟨-, rfl⟩ | ⟨-, ⟨-, rfl⟩ | ⟨-, ⟨-, rfl⟩ | ⟨-, ⟨-, rfl⟩ | ⟨-, ⟨-, rfl⟩ | ⟨-, ⟨-, rfl⟩ | ⟨-, ⟨-, rfl⟩ | ⟨-, rfl⟩⟩⟩⟩⟩⟩⟩⟩⟩⟩⟩⟩⟩⟩ <;>
          exact hinv

/-- The folded record loop preserves the key-equals-stored-name invariant. -/
theorem processEntries_preserves_inv : ∀ (es : List Str) (m m2 : ModInfo),
    processEntries m es = some m2 →
    (∀ k p, (k, p) ∈ m.parameters → p.name = k) →
    ∀ k p, (k, p) ∈ m2.parameters → p.name = k := by
  intro es
  induction es with
  | nil =>
    intro m m2 h hinv
    simp only [processEntries, Option.some.injEq] at h
    subst h
    exact hinv
  | cons e rest ih =>
    intro m m2 h hinv
    unfold processEntries at h
    cases he : processEntry m e with
    | none => rw [he] at h; exact absurd h (by simp)
    | some m3 =>
      rw [he] at h
      exact ih m3 m2 h (processEntry_preserves_inv he hinv)

end ModuleConfig

/-! ## Claim theorems -/

namespace ModuleConfig

/-- C1 (counterexample): a syntactically malformed but validly-encoded
record does abort the parse, contrary to the claim: the record `parm=x`
is valid UTF-8 yet contains no colon, so `find(":").unwrap()` panics and
the following `license=GPL` record is never parsed. -/
theorem parm_no_colon_aborts_cex :
    validUtf8 (strB "parm=x") = true ∧
      parseModinfo (strB "parm=x" ++ [0] ++ strB "license=GPL" ++ [0]) = none := by
  constructor
  · decide
  · decide

/-- C1 (amended): the record loop aborts on a record exactly when the
record fails UTF-8 decoding, or it is a `parm=` record whose remainder
contains no colon, or it is a `parmtype=` record (and not a `parm=` one)
whose remainder has no second colon-separated piece while its first piece
names a registered parameter.  Any other record — including a
syntactically malformed but validly-encoded one — does not abort. -/
theorem processEntry_none_iff (m : ModInfo) (one : Str) :
    processEntry m one = none ↔
      validUtf8 one = false
      ∨ (startsWith one (strB "parm=") = true
         ∧ (one.drop 5).findIdx? (fun x => x == 58) = none)
      ∨ (startsWith one (strB "parm=") = false
         ∧ startsWith one (strB "parmtype=") = true
         ∧ (splitSep 58 (one.drop 9)).get? 1 = none
         ∧ (getParam? m.parameters ((splitSep 58 (one.drop 9)).headD [])).isSome = true) := by
  by_cases hv : validUtf8 one = false
  · unfold processEntry
    simp [hv]
  · by_cases h1 : startsWith one (strB "parm=") = true
    · rw [processEntry_parm_eq m one hv h1]
      cases hf : (one.drop 5).findIdx? (fun x => x == 58) with
      | none => simp [hv, h1, hf]
      | some i => simp [hv, h1, hf]
    · by_cases h2 : startsWith one (strB "parmtype=") = true
      · rw [processEntry_parmtype_eq m one hv h1 h2]
        cases hg : getParam? m.parameters ((splitSep 58 (one.drop 9)).headD []) with
        | none => simp [hv, h1, h2, hg]
        | some x =>
          cases hk : (splitSep 58 (one.drop 9)).get? 1 with
          | none => simp [hv, h1, h2, hg, hk]
          | some kd => simp [hv, h1, h2, hg, hk]
      · unfold processEntry
        rw [if_neg hv, if_neg h1, if_neg h2]
        simp only [ite_some_eq_none_iff]
        simp [hv, h1, h2]

/-- C2 (counterexample): a `depends=` record with an entirely empty
remainder contributes ONE (empty) dependency entry, not zero: the code
pushes every comma-separated piece without filtering empties. -/
theorem depends_empty_remainder_cex :
    parseModinfo (strB "depends=" ++ [0]) =
      some ⟨[], [], [], [[]], [], [], [], false, []⟩ := by decide

/-- C2 (amended): for every `depends=` record, the remainder is split on
`,` and ALL pieces — empty ones included — are appended to the
dependencies sequence in order; an entirely empty remainder contributes
exactly one empty dependency entry. -/
theorem depends_appends_all_pieces (m : ModInfo) (v : Str)
    (h : validUtf8 (strB "depends=" ++ v) = true) :
    processEntry m (strB "depends=" ++ v) =
      some { m with dependencies := m.dependencies ++ splitSep 44 v } := by
  unfold processEntry
  rw [if_neg (by simp [h])]
  rfl

/-- C2 witness: the amended theorem at the concrete record `depends=`
(empty remainder), which appends the single empty piece. -/
theorem depends_appends_all_pieces_witness :
    validUtf8 (strB "depends=" ++ []) = true ∧
      processEntry ModInfo.default (strB "depends=" ++ []) =
        some { ModInfo.default with
                 dependencies := ModInfo.default.dependencies ++ splitSep 44 [] } :=
  ⟨by decide, depends_appends_all_pieces ModInfo.default [] (by decide)⟩

/-- C3 (counterexample): a `parmtype=` record whose remainder is
`p:a:b` sets the kind of parameter `p` to `a` (the piece between the
first and second colon), not to `a:b` (everything after the first colon)
as the claim states. -/
theorem parmtype_multi_colon_cex :
    parseModinfo (strB "parm=p:d" ++ [0] ++ strB "parmtype=p:a:b" ++ [0]) =
      some ⟨[], [(strB "p", ⟨strB "p", strB "d", strB "a"⟩)],
            [], [], [], [], [], false, []⟩ := by decide

/-- C3 (amended): for every `parmtype=` record whose remainder contains a
colon, if a parameter named by the first colon-separated piece exists its
kind is set to the SECOND colon-separated piece (the text between the
first and the second colon); if no such parameter exists the record is a
no-op and not an error. -/
theorem parmtype_sets_second_piece (m : ModInfo) (v kd : Str)
    (h : validUtf8 (strB "parmtype=" ++ v) = true)
    (h2 : (splitSep 58 v).get? 1 = some kd) :
    processEntry m (strB "parmtype=" ++ v) =
      some (if (getParam? m.parameters ((splitSep 58 v).headD [])).isSome = true
            then { m with parameters := setKind m.parameters ((splitSep 58 v).headD []) kd }
            else m) := by
  unfold processEntry
  rw [if_neg (by simp [h])]
  show (match getParam? m.parameters ((splitSep 58 v).headD []) with
        | some _ =>
          match (splitSep 58 v).get? 1 with
          | some kd2 => some { m with parameters := setKind m.parameters ((splitSep 58 v).headD []) kd2 }
          | none => none
        | none => some m) = _
  rw [h2]
  cases hg : getParam? m.parameters ((splitSep 58 v).headD []) with
  | none => simp
  | some x => simp

/-- C3 witness: the amended theorem at the concrete remainder `p:a:b`
against a state in which parameter `p` is registered. -/
theorem parmtype_sets_second_piece_witness :
    validUtf8 (strB "parmtype=" ++ strB "p:a:b") = true ∧
      (splitSep 58 (strB "p:a:b")).get? 1 = some (strB "a") ∧
      processEntry ⟨[], [(strB "p", ⟨strB "p", strB "d", []⟩)], [], [], [], [], [], false, []⟩
          (strB "parmtype=" ++ strB "p:a:b") =
        some (if (getParam? [(strB "p", ⟨strB "p", strB "d", []⟩)] ((splitSep 58 (strB "p:a:b")).headD [])).isSome = true
              then { (⟨[], [(strB "p", ⟨strB "p", strB "d", []⟩)], [], [], [], [], [], false, []⟩ : ModInfo) with
                       parameters := setKind [(strB "p", ⟨strB "p", strB "d", []⟩)] ((splitSep 58 (strB "p:a:b")).headD []) (strB "a") }
              else ⟨[], [(strB "p", ⟨strB "p", strB "d", []⟩)], [], [], [], [], [], false, []⟩) :=
  ⟨by decide, by decide,
    parmtype_sets_second_piece
      ⟨[], [(strB "p", ⟨strB "p", strB "d", []⟩)], [], [], [], [], [], false, []⟩
      (strB "p:a:b") (strB "a") (by decide) (by decide)⟩

end ModuleConfig

namespace ModuleConfig

/-- C4 (counterexample): when the decompressed image has no `.modinfo`
section, the per-file extraction does NOT produce a normal empty result:
it returns the error `Err("Cannot find .modinfo section")`. -/
theorem missing_section_error_cex :
    get_modinfo_from_section none =
      some (Except.error "Cannot find .modinfo section") := rfl

/-- C4 (amended): the per-file extraction returns the error
`Err("Cannot find .modinfo section")` exactly when the image has no
`.modinfo` section, and the driving loop's `unwrap` of that error then
kills the run (a batch consisting of such a file yields no result). -/
theorem missing_section_yields_error_iff :
    (∀ sec : Option Str,
        get_modinfo_from_section sec =
            some (Except.error "Cannot find .modinfo section") ↔
          sec = none) ∧
      run_batch [FileOutcome.image none] = none := by
  constructor
  · intro sec
    cases sec with
    | none => simp [get_modinfo_from_section]
    | some s =>
      simp only [get_modinfo_from_section]
      constructor
      · intro hcontra
        cases hp : parseModinfo s with
        | none => rw [hp] at hcontra; simp at hcontra
        | some mi => rw [hp] at hcontra; simp at hcontra
      · intro hcontra
        exact absurd hcontra (by simp)
  · rfl

/-- C5 (counterexample): a per-file fatal failure is NOT confined to that
file: with a corrupt first file and a well-formed second file, the batch
aborts and produces nothing, although the second file alone would
succeed. -/
theorem run_batch_aborts_cex :
    run_batch [FileOutcome.badStream,
               FileOutcome.image (some (strB "license=GPL" ++ [0]))] = none ∧
      run_batch [FileOutcome.image (some (strB "license=GPL" ++ [0]))] =
        some [⟨strB "GPL", [], [], [], [], [], [], false, []⟩] := by
  constructor
  · rfl
  · decide

/-- C5 (amended): fatal per-file failures are not confined: `main`
unwraps every per-file result, so the batch yields a result exactly when
every file's extraction succeeds — the first failing file terminates the
whole run. -/
theorem run_batch_isSome_iff_all_ok : ∀ files : List FileOutcome,
    (run_batch files).isSome = true ↔
      ∀ f ∈ files, ∃ mi, get_modinfo_outcome f = some (Except.ok mi) := by
  intro files
  induction files with
  | nil => simp [run_batch]
  | cons f rest ih =>
    unfold run_batch
    cases hf : get_modinfo_outcome f with
    | none => simp [hf]
    | some r =>
      cases r with
      | error e => simp [hf]
      | ok mi => simp [hf, ih]

/-- C6: parameter correlation is order-dependent, and a parameter's kind
can only be set after a `parm=` record of the same name registered it.
Universally: (1) a `parmtype=` record whose first colon-piece names no
registered parameter is an exact no-op — silently dropped, never an
error, never setting any kind; (2) over any single record step, a name
unregistered before the step is either still unregistered after it, or
the record was a `parm=` record that registered it with EMPTY kind — so
only a `parm=` record registers a name, and registration always precedes
any kind-setting.  Concretely: `parm=foo:bar` then `parmtype=foo:int`
yields parameter `foo` with description `bar` and kind `int`, while the
reverse order leaves `foo` with no kind set. -/
theorem parm_parmtype_order_dependence :
    (∀ (m : ModInfo) (v : Str), validUtf8 (strB "parmtype=" ++ v) = true →
        getParam? m.parameters ((splitSep 58 v).headD []) = none →
        processEntry m (strB "parmtype=" ++ v) = some m) ∧
      (∀ (m m2 : ModInfo) (one : Str) (k : Str),
        processEntry m one = some m2 →
        getParam? m.parameters k = none →
        getParam? m2.parameters k = none ∨
          (startsWith one (strB "parm=") = true ∧
            ∃ d, getParam? m2.parameters k = some ⟨k, d, []⟩)) ∧
      parseModinfo (strB "parm=foo:bar" ++ [0] ++ strB "parmtype=foo:int" ++ [0]) =
        some ⟨[], [(strB "foo", ⟨strB "foo", strB "bar", strB "int"⟩)],
              [], [], [], [], [], false, []⟩ ∧
      parseModinfo (strB "parmtype=foo:int" ++ [0] ++ strB "parm=foo:bar" ++ [0]) =
        some ⟨[], [(strB "foo", ⟨strB "foo", strB "bar", []⟩)],
              [], [], [], [], [], false, []⟩ := by
  refine ⟨?_, ?_, by decide, by decide⟩
  · intro m v h hg
    unfold processEntry
    rw [if_neg (by simp [h])]
    show (match getParam? m.parameters ((splitSep 58 v).headD []) with
          | some _ =>
            match (splitSep 58 v).get? 1 with
            | some kd2 => some { m with parameters := setKind m.parameters ((splitSep 58 v).headD []) kd2 }
            | none => none
          | none => some m) = some m
    rw [hg]
  · intro m m2 one k h hk
    by_cases hv : validUtf8 one = false
    · unfold processEntry at h
      rw [if_pos hv] at h
      exact absurd h (by simp)
    · by_cases h1 : startsWith one (strB "parm=") = true
      · rw [processEntry_parm_eq m one hv h1] at h
        cases hf : (one.drop 5).findIdx? (fun x => x == 58) with
        | none => rw [hf] at h; exact absurd h (by simp)
        | some i =>
          rw [hf] at h
          simp only [Option.some.injEq] at h
          have hp : m2.parameters = insertParam m.parameters ((one.drop 5).take i) ⟨(one.drop 5).take i, ((one.drop 5).drop i).drop 1, []⟩ := by
            rw [← h]
          rw [hp, getParam?_insertParam]
          by_cases hkn : (one.drop 5).take i = k
          · right
            refine ⟨h1, ((one.drop 5).drop i).drop 1, ?_⟩
            rw [if_pos hkn, hkn]
          · left
            rw [if_neg hkn]
            exact hk
      · by_cases h2 : startsWith one (strB "parmtype=") = true
        · rw [processEntry_parmtype_eq m one hv h1 h2] at h
          cases hg : getParam? m.parameters ((splitSep 58 (one.drop 9)).headD []) with
          | none =>
            rw [hg] at h
            simp only [Option.some.injEq] at h
            subst h
            exact Or.inl hk
          | some x =>
            rw [hg] at h
            cases hkk : (splitSep 58 (one.drop 9)).get? 1 with
            | none => rw [hkk] at h; exact absurd h (by simp)
            | some kd =>
              rw [hkk] at h
              simp only [Option.some.injEq] at h
              have hp : m2.parameters = setKind m.parameters ((splitSep 58 (one.drop 9)).headD []) kd := by
                rw [← h]
              rw [hp]
              exact Or.inl (getParam?_setKind_none hk)
        · unfold processEntry at h
          rw [if_neg hv, if_neg h1, if_neg h2] at h
          simp only [ite_some_eq_some_iff, Option.some.injEq] at h
          rcases h with ⟨-, rfl⟩ | ⟨-, ⟨-, rfl⟩ | ⟨-, ⟨-, rfl⟩ | ⟨-, ⟨-, rfl⟩ | ⟨-, ⟨-, rfl⟩ | ⟨-, ⟨-, rfl⟩ | ⟨-, ⟨-, rfl⟩ | ⟨-, ⟨-, rfl⟩ | ⟨-, ⟨-, rfl⟩ | ⟨-, ⟨-, rfl⟩ | ⟨-, ⟨-, rfl⟩ | ⟨-, ⟨-, rfl⟩ | ⟨-, ⟨-, rfl⟩ | ⟨-, ⟨-, rfl⟩ | ⟨-, rfl⟩⟩⟩⟩⟩⟩⟩⟩⟩⟩⟩⟩⟩⟩ <;>
            exact Or.inl hk

/-- C6 witness: the unseen-name no-op part at the concrete record
`parmtype=foo:int` against the empty default state. -/
theorem parm_parmtype_order_dependence_witness :
    validUtf8 (strB "parmtype=" ++ strB "foo:int") = true ∧
      getParam? ModInfo.default.parameters
          ((splitSep 58 (strB "foo:int")).headD []) = none ∧
      processEntry ModInfo.default (strB "parmtype=" ++ strB "foo:int") =
        some ModInfo.default :=
  ⟨by decide, by decide,
    parm_parmtype_order_dependence.1 ModInfo.default (strB "foo:int")
      (by decide) (by decide)⟩

/-- C7: the scalar fields license, description and vermagic are
last-write-wins: a record with the corresponding prefix replaces the
field with its remainder regardless of the previous value, and a section
with two `description=` records keeps only the second value. -/
theorem scalar_fields_last_write_wins :
    (∀ (m : ModInfo) (v : Str), validUtf8 (strB "license=" ++ v) = true →
        processEntry m (strB "license=" ++ v) = some { m with license := v }) ∧
      (∀ (m : ModInfo) (v : Str), validUtf8 (strB "description=" ++ v) = true →
        processEntry m (strB "description=" ++ v) = some { m with description := v }) ∧
      (∀ (m : ModInfo) (v : Str), validUtf8 (strB "vermagic=" ++ v) = true →
        processEntry m (strB "vermagic=" ++ v) = some { m with vermagic := v }) ∧
      parseModinfo (strB "description=a" ++ [0] ++ strB "description=b" ++ [0]) =
        some ⟨[], [], [], [], strB "b", [], [], false, []⟩ := by
  refine ⟨?_, ?_, ?_, by decide⟩ <;>
    · intro m v h
      unfold processEntry
      rw [if_neg (by simp [h])]
      rfl

/-- C7 witness: the general license part at the concrete remainder
`GPL`, overwriting a previously set license. -/
theorem scalar_fields_last_write_wins_witness :
    validUtf8 (strB "license=" ++ strB "GPL") = true ∧
      processEntry ⟨strB "MIT", [], [], [], [], [], [], false, []⟩
          (strB "license=" ++ strB "GPL") =
        some { (⟨strB "MIT", [], [], [], [], [], [], false, []⟩ : ModInfo) with
                 license := strB "GPL" } :=
  ⟨by decide,
    scalar_fields_last_write_wins.1
      ⟨strB "MIT", [], [], [], [], [], [], false, []⟩ (strB "GPL") (by decide)⟩

/-- C8: the intree field is true iff the `intree=` remainder equals
exactly the single character `Y`: an `intree=` record sets the field to
that exact comparison, `intree=Y` yields true, while `intree=y`,
`intree=yes` and an absent intree record all yield false. -/
theorem intree_exact_Y :
    (∀ (m : ModInfo) (v : Str), validUtf8 (strB "intree=" ++ v) = true →
        processEntry m (strB "intree=" ++ v) =
          some { m with intree := v == strB "Y" }) ∧
      (parseModinfo (strB "intree=Y" ++ [0])).map ModInfo.intree = some true ∧
      (parseModinfo (strB "intree=y" ++ [0])).map ModInfo.intree = some false ∧
      (parseModinfo (strB "intree=yes" ++ [0])).map ModInfo.intree = some false ∧
      (parseModinfo []).map ModInfo.intree = some false := by
  refine ⟨?_, by decide, by decide, by decide, by decide⟩
  intro m v h
  unfold processEntry
  rw [if_neg (by simp [h])]
  rfl

/-- C8 witness: the general part at the concrete remainder `Y`. -/
theorem intree_exact_Y_witness :
    validUtf8 (strB "intree=" ++ strB "Y") = true ∧
      processEntry ModInfo.default (strB "intree=" ++ strB "Y") =
        some { ModInfo.default with intree := strB "Y" == strB "Y" } :=
  ⟨by decide, intree_exact_Y.1 ModInfo.default (strB "Y") (by decide)⟩

end ModuleConfig

namespace ModuleConfig

/-- C9: for every successfully parsed line of the loaded-module table,
the constructed Module's dependencies is empty when the dependencies
field is the sentinel `-`, and otherwise is the ordered sequence of
non-empty comma-separated names of that field. -/
theorem loaded_module_dependencies (text : Str) (m : Module) (f : Str)
    (h : parse_proc_line text = some m)
    (h2 : (splitSep 32 text).get? 3 = some f) :
    m.dependencies =
      if f = strB "-" then []
      else (splitSep 44 f).filter (fun one => !(one == [])) := by
  unfold parse_proc_line at h
  cases hq0 : (splitSep 32 text).get? 0 with
  | none => rw [hq0] at h; exact Option.noConfusion h
  | some nm =>
  rw [hq0] at h
  cases hq1 : (splitSep 32 text).get? 1 with
  | none => rw [hq1] at h; exact Option.noConfusion h
  | some sz =>
  rw [hq1] at h
  cases hq2 : (splitSep 32 text).get? 2 with
  | none => rw [hq2] at h; exact Option.noConfusion h
  | some uc =>
  rw [hq2] at h
  cases hq3 : (splitSep 32 text).get? 3 with
  | none => rw [hq3] at h; exact Option.noConfusion h
  | some dep =>
  rw [hq3] at h
  rw [hq3] at h2
  injection h2 with hdf
  rw [← hdf]
  change (match parseUsize sz, parseUsize uc with
          | some s, some r =>
            some (Module.mk nm s r
              (if dep = strB "-" then []
               else (splitSep 44 dep).filter (fun one => !(one == []))))
          | _, _ => none) = some m at h
  cases hp1 : parseUsize sz with
  | none => rw [hp1] at h; exact Option.noConfusion h
  | some s =>
  rw [hp1] at h
  cases hp2 : parseUsize uc with
  | none => rw [hp2] at h; exact Option.noConfusion h
  | some r =>
  rw [hp2] at h
  change some (Module.mk nm s r
      (if dep = strB "-" then []
       else (splitSep 44 dep).filter (fun one => !(one == [])))) = some m at h
  injection h with hm
  subst hm
  rfl

/-- C9 witness: the theorem at a concrete loaded-module line with a
comma-separated dependencies field. -/
theorem loaded_module_dependencies_witness :
    parse_proc_line (strB "snd 8192 2 snd_pcm,snd_timer") =
        some ⟨strB "snd", 8192, 2, [strB "snd_pcm", strB "snd_timer"]⟩ ∧
      (splitSep 32 (strB "snd 8192 2 snd_pcm,snd_timer")).get? 3 =
        some (strB "snd_pcm,snd_timer") ∧
      (⟨strB "snd", 8192, 2, [strB "snd_pcm", strB "snd_timer"]⟩ : Module).dependencies =
        (if strB "snd_pcm,snd_timer" = strB "-" then []
         else (splitSep 44 (strB "snd_pcm,snd_timer")).filter (fun one => !(one == []))) :=
  ⟨by decide, by decide,
    loaded_module_dependencies (strB "snd 8192 2 snd_pcm,snd_timer")
      ⟨strB "snd", 8192, 2, [strB "snd_pcm", strB "snd_timer"]⟩
      (strB "snd_pcm,snd_timer") (by decide) (by decide)⟩

/-- C10: for every ModInfo produced by the parser, every key of its
parameters mapping is bound to a ModuleParameter whose stored name equals
that key: `parm=` inserts a parameter under its own name and `parmtype=`
mutates only the kind field. -/
theorem parameters_key_name_invariant (data : Str) (m : ModInfo)
    (h : parseModinfo data = some m) :
    ∀ k p, (k, p) ∈ m.parameters → p.name = k := by
  unfold parseModinfo at h
  refine processEntries_preserves_inv _ _ _ h ?_
  intro k p hp
  simp [ModInfo.default] at hp

/-- C10 witness: the theorem at a concrete one-parameter section. -/
theorem parameters_key_name_invariant_witness :
    parseModinfo (strB "parm=a:b" ++ [0]) =
        some ⟨[], [(strB "a", ⟨strB "a", strB "b", []⟩)], [], [], [], [], [], false, []⟩ ∧
      (⟨strB "a", strB "b", []⟩ : ModuleParameter).name = strB "a" :=
  ⟨by decide,
    parameters_key_name_invariant (strB "parm=a:b" ++ [0])
      ⟨[], [(strB "a", ⟨strB "a", strB "b", []⟩)], [], [], [], [], [], false, []⟩
      (by decide) (strB "a") ⟨strB "a", strB "b", []⟩ (by simp)⟩

end ModuleConfig

namespace ModuleConfig

/-- C1 witness: the abort characterization instantiated at the concrete
colon-free `parm=x` record. -/
theorem processEntry_none_iff_witness :
    processEntry ModInfo.default (strB "parm=x") = none ↔
      validUtf8 (strB "parm=x") = false
      ∨ (startsWith (strB "parm=x") (strB "parm=") = true
         ∧ ((strB "parm=x").drop 5).findIdx? (fun x => x == 58) = none)
      ∨ (startsWith (strB "parm=x") (strB "parm=") = false
         ∧ startsWith (strB "parm=x") (strB "parmtype=") = true
         ∧ (splitSep 58 ((strB "parm=x").drop 9)).get? 1 = none
         ∧ (getParam? ModInfo.default.parameters
              ((splitSep 58 ((strB "parm=x").drop 9)).headD [])).isSome = true) :=
  processEntry_none_iff ModInfo.default (strB "parm=x")

/-- C4 witness: the error characterization instantiated at the missing
section. -/
theorem missing_section_yields_error_iff_witness :
    get_modinfo_from_section none =
        some (Except.error "Cannot find .modinfo section") ↔
      (none : Option Str) = none :=
  missing_section_yields_error_iff.1 none

/-- C5 witness: the batch characterization instantiated at a one-file
batch whose image carries a well-formed section. -/
theorem run_batch_isSome_iff_all_ok_witness :
    (run_batch [FileOutcome.image (some (strB "license=GPL" ++ [0]))]).isSome = true ↔
      ∀ f ∈ [FileOutcome.image (some (strB "license=GPL" ++ [0]))],
        ∃ mi, get_modinfo_outcome f = some (Except.ok mi) :=
  run_batch_isSome_iff_all_ok [FileOutcome.image (some (strB "license=GPL" ++ [0]))]

end ModuleConfig
